import Mathlib

/-!
Verification development for the inlyse-python API client
(src/inlyse/cli.py).  The definitions below are a shallow embedding of
the client's pure logic: network I/O (the HTTP calls performed by the
requests session) is modelled by oracles — lists of responses supplied
as inputs — and the random draw of random.uniform is modelled by an
explicit parameter in [0, 1].  Python floats are modelled as rationals,
Python exceptions as explicit outcome constructors, and unhandled
exceptions (KeyError and the like) as Option failure (none).
-/

/-- A structured JSON value, the result of response.json(). -/
inductive Json where
  | null
  | bool (b : Bool)
  | num (q : ℚ)
  | str (s : String)
  | arr (elems : List Json)
  | obj (fields : List (String × Json))

/-- The content field of an InlyseResponse: either the decoded JSON value
(when the content-type mime is application/json) or the raw byte payload
(response.content). -/
inductive Content where
  | json (j : Json)
  | bytes (b : List Nat)

/-- Python dict lookup on a JSON object inside a Content value: returns none
(a KeyError / TypeError in the source) when the key is missing or the
content is not a JSON object. -/
def contentLookup : Content → String → Option Json
  | Content.json (Json.obj kvs), k => (kvs.find? (fun p => p.1 == k)).map Prod.snd
  | _, _ => none

/-- A JSON number viewed as a Python number (bools coerce to 0/1 as in
Python); none models the TypeError raised when a non-number is used in
arithmetic. -/
def Json.asNum? : Json → Option ℚ
  | Json.num q => some q
  | Json.bool b => some (if b then 1 else 0)
  | _ => none

/-- str() rendering of a JSON value when it is interpolated into a path by
str.format (only scalar values occur in practice; the rendering of
containers is not depended on by any claim). -/
def jsonArgString : Json → String
  | Json.str s => s
  | Json.num q => toString q
  | Json.bool b => if b then "True" else "False"
  | Json.null => "None"
  | _ => ""

/-- The timezone attached by .replace(tzinfo=timezone.utc); only UTC is
ever attached by the source. -/
inductive TZ where
  | utc
deriving DecidableEq

/-- A naive datetime as produced by datetime.strptime. -/
structure NaiveDateTime where
  year : Nat
  month : Nat
  day : Nat
  hour : Nat
  minute : Nat
  second : Nat
deriving DecidableEq

/-- A timezone-aware datetime (strptime result with tzinfo replaced). -/
structure AwareDateTime where
  naive : NaiveDateTime
  tz : TZ
deriving DecidableEq

/-- The rate-limit snapshot built by the endpoint decorator from the
x-ratelimit-* response headers. -/
structure RateLimitInfo where
  limit : Nat
  remaining : Nat
  reset : AwareDateTime
deriving DecidableEq

/-- Split a character list at every occurrence of the separator character;
the accumulator holds the current piece in reverse.  This is str.split with
a one-character separator (the only separators the source uses for header
and timestamp parsing), written structurally so it evaluates. -/
def splitOnCharAux (c : Char) : List Char → List Char → List (List Char)
  | [], acc => [acc.reverse]
  | x :: xs, acc =>
    if x = c then acc.reverse :: splitOnCharAux c xs []
    else splitOnCharAux c xs (x :: acc)

/-- Split a character list at every occurrence of the separator character. -/
def splitOnChar (c : Char) (cs : List Char) : List (List Char) :=
  splitOnCharAux c cs []

/-- Whitespace as stripped by str.strip(). -/
def isPyWS (c : Char) : Bool :=
  c == ' ' || c == '\t' || c == '\n' || c == '\r'

/-- Drop characters satisfying the predicate from both ends. -/
def trimChars (p : Char → Bool) (cs : List Char) : List Char :=
  ((cs.dropWhile p).reverse.dropWhile p).reverse

/-- int() applied to a decimal string, as the rate-limit headers are
parsed; none models the ValueError on a non-numeric string. -/
def digitsToNat? (cs : List Char) : Option Nat :=
  if cs ≠ [] ∧ cs.all Char.isDigit then
    some (cs.foldl (fun n c => n * 10 + (c.toNat - 48)) 0)
  else none

/-- datetime.strptime(s, d-m-Y H:M:S format): parse a day-month-year
hour:minute:second timestamp, validating field ranges; none models the
ValueError raised on a malformed string. -/
def strptimeDMY (s : String) : Option NaiveDateTime :=
  match splitOnChar ' ' s.data with
  | [d, t] =>
    match splitOnChar '-' d, splitOnChar ':' t with
    | [dd, mm, yyyy], [hh, mi, ss] => do
      let day ← digitsToNat? dd
      let mon ← digitsToNat? mm
      let year ← digitsToNat? yyyy
      let hour ← digitsToNat? hh
      let minute ← digitsToNat? mi
      let sec ← digitsToNat? ss
      if 1 ≤ day ∧ day ≤ 31 ∧ 1 ≤ mon ∧ mon ≤ 12 ∧ hour ≤ 23 ∧ minute ≤ 59 ∧ sec ≤ 61 then
        some ⟨year, mon, day, hour, minute, sec⟩
      else
        none
    | _, _ => none
  | _ => none

/-- Case-insensitive header lookup, modelling requests' CaseInsensitiveDict. -/
def headerLookup (headers : List (String × String)) (key : String) : Option String :=
  (headers.find? (fun p =>
    p.1.data.map Char.toLower == key.data.map Char.toLower)).map Prod.snd

/-- A parameter value in a parsed content-type header: a string after an
equals sign, or the flag True for a bare parameter. -/
inductive ParamVal where
  | str (s : String)
  | flag
deriving DecidableEq

/-- Strip the characters double-quote, single-quote and space from both ends
(the items_to_strip of requests.utils). -/
def stripQuotes (cs : List Char) : List Char :=
  trimChars (fun c => c == '"' || c.toNat == 39 || c == ' ') cs

/-- Parse one parameter token of a content-type header, as in
requests.utils: key lowercased; value True when there is no equals sign. -/
def parseCTParam (praw : List Char) : Option (String × ParamVal) :=
  let p := trimChars isPyWS praw
  if p = [] then none
  else
    match splitOnChar '=' p with
    | [] => none
    | [_] => some (String.mk (p.map Char.toLower), ParamVal.flag)
    | k :: rest =>
        some (String.mk ((stripQuotes k).map Char.toLower),
          ParamVal.str (String.mk (stripQuotes (List.intercalate ['='] rest))))

/-- requests.utils content-type header parsing: split on semicolons, strip
the mime token, parse the remaining tokens as parameters. -/
def parseContentTypeHeader (header : String) : String × List (String × ParamVal) :=
  match splitOnChar ';' header.data with
  | [] => ("", [])
  | ct :: params => (String.mk (trimChars isPyWS ct), params.filterMap parseCTParam)

/-- Split a URL's characters at the first scheme separator. -/
def splitScheme : List Char → Option (List Char × List Char)
  | [] => none
  | ':' :: '/' :: '/' :: rest => some ([], rest)
  | c :: rest => (splitScheme rest).map (fun p => (c :: p.1, p.2))

/-- requests.compat.urljoin, modelled for the absolute-path endpoints this
client uses: the path replaces everything after the scheme and host of the
base URL. -/
def urljoin (base path : String) : String :=
  match splitScheme base.data with
  | some (scheme, rest) =>
    match splitOnChar '/' rest with
    | host :: _ => String.mk scheme ++ "://" ++ String.mk host ++ path
    | [] => base ++ path
  | none => path

/-- The raw HTTP response handed to the endpoint decorator: status code,
headers, and the body in its two views (response.json(), which is none when
the body is not valid JSON, and response.content). -/
structure RawResponse where
  status_code : Nat
  headers : List (String × String)
  bodyJson : Option Json
  bodyBytes : List Nat

/-- A response of the INLYSE API (the InlyseResponse dataclass). -/
structure InlyseResponse where
  endpoint : String
  status : Nat
  rate_limit : Option RateLimitInfo
  content_type : String × List (String × ParamVal)
  content : Content

/-- The quota block of the endpoint decorator: when the
x-ratelimit-remaining header is present, build the rate-limit snapshot from
the three x-ratelimit-* headers (int() on limit and remaining, strptime +
UTC on reset); when it is absent the snapshot is None.  The outer none
models an unhandled parse exception. -/
def rateLimitOfHeaders (headers : List (String × String)) :
    Option (Option RateLimitInfo) :=
  match headerLookup headers "x-ratelimit-remaining" with
  | none => some none
  | some remStr => do
    let limStr ← headerLookup headers "x-ratelimit-limit"
    let lim ← digitsToNat? limStr.data
    let rem ← digitsToNat? remStr.data
    let rstStr ← headerLookup headers "x-ratelimit-reset"
    let dt ← strptimeDMY rstStr
    some (some { limit := lim, remaining := rem, reset := { naive := dt, tz := TZ.utc } })

/-- The endpoint decorator's wrapper: build the uniform InlyseResponse
envelope from a raw response — rate-limit snapshot from headers, parsed
content-type, JSON-decoded content for application/json and raw bytes
otherwise. -/
def endpointWrap (clientUrl path : String) (r : RawResponse) :
    Option InlyseResponse := do
  let quota ← rateLimitOfHeaders r.headers
  let ctHeader ← headerLookup r.headers "content-type"
  let ct := parseContentTypeHeader ctHeader
  let content ←
    if ct.1 = "application/json" then r.bodyJson.map Content.json
    else some (Content.bytes r.bodyBytes)
  some { endpoint := urljoin clientUrl path
       , status := r.status_code
       , rate_limit := quota
       , content_type := ct
       , content := content }

/-- The request timeout configured on the client: a single float or a
(connect, read) tuple, as accepted by requests. -/
inductive Timeout where
  | single (t : ℚ)
  | connectRead (c r : ℚ)
deriving DecidableEq

/-- The urllib3 Retry policy installed on the session adapter. -/
structure RetryPolicy where
  total : Nat
  backoff_factor : Nat
  status_forcelist : List Nat
  allowed_methods : List String
  raise_on_status : Bool
deriving DecidableEq

/-- The configuration of a requests session created by the api property:
base URL, headers, the adapter's timeout and its retry policy. -/
structure Session where
  base_url : String
  headers : List (String × String)
  adapter_timeout : Timeout
  retry : RetryPolicy
deriving DecidableEq

/-- The WebClient state: base URL, license key, timeout and the lazily
created session stored in the _api attribute. -/
structure WebClient where
  url : String
  license_key : String
  timeout : Timeout
  _api : Option Session

/-- The session built by the api property getter when _api is unset:
BaseUrlSession on the client's URL, bearer-token Authorization header, the
TimeoutHTTPAdapter carrying the client's timeout, and the GET-only retry
policy for statuses 429 and 503. -/
def WebClient.mkSession (c : WebClient) : Session :=
  { base_url := c.url
  , headers := [("Authorization", "Bearer " ++ c.license_key)]
  , adapter_timeout := c.timeout
  , retry :=
      { total := 3
      , backoff_factor := 1
      , status_forcelist := [429, 503]
      , allowed_methods := ["GET"]
      , raise_on_status := false } }

/-- The api property getter: return the stored session, or create, store
and return a fresh one when _api is unset. -/
def WebClient.api (c : WebClient) : Session × WebClient :=
  match c._api with
  | some s => (s, c)
  | none => (c.mkSession, { c with _api := some c.mkSession })

/-- close(): close the underlying session if any and set _api to None. -/
def WebClient.close (c : WebClient) : WebClient :=
  { c with _api := none }

/-- A sleep performed by the _wait method: the attempt-0 courtesy sleep of
the average response time, or the jittered backoff sleep. -/
inductive WaitEvent where
  | sleepAvg (t : ℚ)
  | sleepBackoff (t : ℚ)
deriving DecidableEq

/-- The _wait method: on attempt 0 sleep the full avg_time first; then draw
random.uniform(0, min(cap, base * 2^attempt)) — modelled as u times the
bound for a draw parameter u in [0, 1] — sleep it, and return it.  The
result is the list of sleeps performed and the returned backoff time. -/
def WebClient._wait (attempt : Nat) (avg_time : ℚ) (cap : ℚ) (base : ℚ)
    (u : ℚ) : List WaitEvent × ℚ :=
  let back_offtime := u * min cap (base * 2 ^ attempt)
  ((if attempt = 0 then [WaitEvent.sleepAvg avg_time] else []) ++
      [WaitEvent.sleepBackoff back_offtime],
    back_offtime)

/-- An observable event of the poll loop: a check call for an analysis id
observing a status, or one of the sleeps of _wait. -/
inductive PollEvent where
  | check (analysis_id : String) (status : Nat)
  | sleepAvg (t : ℚ)
  | sleepBackoff (t : ℚ)

/-- Lift a _wait sleep into a poll-loop event. -/
def waitToPoll : WaitEvent → PollEvent
  | WaitEvent.sleepAvg t => PollEvent.sleepAvg t
  | WaitEvent.sleepBackoff t => PollEvent.sleepBackoff t

/-- The terminal outcome of get_analysis: a returned envelope or one of the
raised exceptions.  noResponse is a model artifact marking that the
supplied oracle of check responses ran out. -/
inductive PollOutcome where
  | ok (r : InlyseResponse)
  | rateLimitExceeded
  | apiError (c : Content)
  | maxRetriesExceeded
  | noResponse

/-- The while loop of get_analysis: fuel is max_retries minus the current
retries counter, responses is the oracle of successive check results.
Each iteration performs one check; on 200 it returns the envelope, on 202
it runs _wait (with the retries counter as the attempt and estimated_time
as avg_time) and continues, on 429 it raises RateLimitExceeded, on any
other status it raises InlyseApiError with the response content; when the
fuel runs out it raises MaxRetriesExceeded.  The second component is the
trace of events in order. -/
def getAnalysisLoop (analysis_id : String) (estimated_time : ℚ)
    (u : Nat → ℚ) (retries : Nat) (responses : List InlyseResponse) :
    Nat → PollOutcome × List PollEvent
  | 0 => (PollOutcome.maxRetriesExceeded, [])
  | fuel + 1 =>
    match responses with
    | [] => (PollOutcome.noResponse, [])
    | r :: rest =>
      if r.status = 200 then
        (PollOutcome.ok r, [PollEvent.check analysis_id r.status])
      else if r.status = 202 then
        let w := WebClient._wait retries estimated_time 40 (1/10) (u retries)
        let next := getAnalysisLoop analysis_id estimated_time u
          (retries + 1) rest fuel
        (next.1,
          PollEvent.check analysis_id r.status :: w.1.map waitToPoll ++ next.2)
      else if r.status = 429 then
        (PollOutcome.rateLimitExceeded, [PollEvent.check analysis_id r.status])
      else
        (PollOutcome.apiError r.content, [PollEvent.check analysis_id r.status])

/-- get_analysis: run the poll loop from retries = 0 with the given
max_retries budget.  The defaults mirror the source: estimated_time
5.83675 and max_retries 3. -/
def WebClient.get_analysis (analysis_id : String)
    (responses : List InlyseResponse) (u : Nat → ℚ)
    (estimated_time : ℚ := 583675/100000) (max_retries : Nat := 3) :
    PollOutcome × List PollEvent :=
  getAnalysisLoop analysis_id estimated_time u 0 responses max_retries

/-- The _upload wrapper: given the response of the upload binding (an
oracle argument standing for the HTTP POST), raise RateLimitExceeded on
429, raise InlyseApiError with the content on any status outside
[200, 299], and otherwise extract EstimatedAnalysisTime and id from the
JSON body and run get_analysis with estimated time
EstimatedAnalysisTime * 0.2.  none models an unhandled exception (a
KeyError on a missing key or a TypeError on a non-numeric time). -/
def WebClient._upload (uploadResp : InlyseResponse)
    (checkResponses : List InlyseResponse) (u : Nat → ℚ)
    (max_retries : Nat) : Option (PollOutcome × List PollEvent) :=
  if uploadResp.status = 429 then
    some (PollOutcome.rateLimitExceeded, [])
  else if 299 < uploadResp.status ∨ uploadResp.status < 200 then
    some (PollOutcome.apiError uploadResp.content, [])
  else do
    let estJson ← contentLookup uploadResp.content "EstimatedAnalysisTime"
    let est ← estJson.asNum?
    let idJson ← contentLookup uploadResp.content "id"
    some (WebClient.get_analysis (jsonArgString idJson) checkResponses u
      (est * (1/5)) max_retries)

/-- scan_file: upload a local file (the POST's response supplied as an
oracle) and poll; max_retries defaults to 15. -/
def WebClient.scan_file (filename : String) (content : List Nat)
    (uploadResp : InlyseResponse) (checkResponses : List InlyseResponse)
    (u : Nat → ℚ) (max_retries : Nat := 15) :
    Option (PollOutcome × List PollEvent) :=
  WebClient._upload uploadResp checkResponses u max_retries

/-- scan_url: upload a remote file and poll; max_retries defaults to 15. -/
def WebClient.scan_url (url : String) (uploadResp : InlyseResponse)
    (checkResponses : List InlyseResponse) (u : Nat → ℚ)
    (max_retries : Nat := 15) : Option (PollOutcome × List PollEvent) :=
  WebClient._upload uploadResp checkResponses u max_retries

/-- scan_owa: upload an outlook attachment and poll; max_retries defaults
to 15. -/
def WebClient.scan_owa (url : String) (token : String)
    (uploadResp : InlyseResponse) (checkResponses : List InlyseResponse)
    (u : Nat → ℚ) (max_retries : Nat := 15) :
    Option (PollOutcome × List PollEvent) :=
  WebClient._upload uploadResp checkResponses u max_retries

/-- The filter values list_analyses accepts unchanged. -/
def validFilters : List String := ["all", "finished", "unfinished", "error"]

/-- The outgoing HTTP request built by an endpoint method. -/
structure OutgoingRequest where
  method : String
  path : String
  params : List (String × String)
deriving DecidableEq

/-- list_analyses, up to the outgoing request: an unrecognized filter value
is replaced by all, with a warning logged (the Bool component). -/
def WebClient.list_analysesRequest (filter0 : String) :
    OutgoingRequest × Bool :=
  let warned := filter0 ∉ validFilters
  let f := if filter0 ∈ validFilters then filter0 else "all"
  ({ method := "GET", path := "/api/analysis", params := [("filter", f)] },
    decide warned)

/-- Number of check calls in a poll-loop trace. -/
def isCheck : PollEvent → Bool
  | PollEvent.check _ _ => true
  | _ => false

/-- Number of check calls in a poll-loop trace. -/
def checkCount (tr : List PollEvent) : Nat := (tr.filter isCheck).length

lemma checkCount_append (a b : List PollEvent) :
    checkCount (a ++ b) = checkCount a + checkCount b := by
  simp [checkCount, List.filter_append]

lemma checkCount_check (analysis_id : String) (s : Nat) (tr : List PollEvent) :
    checkCount (PollEvent.check analysis_id s :: tr) = checkCount tr + 1 := by
  simp [checkCount, List.filter_cons, isCheck]

lemma checkCount_wait (attempt : Nat) (avg cap base u : ℚ) :
    checkCount ((WebClient._wait attempt avg cap base u).1.map waitToPoll) = 0 := by
  unfold WebClient._wait
  by_cases h : attempt = 0 <;>
    simp [h, checkCount, waitToPoll, isCheck, List.filter_cons]

/-- C8: close() discards the underlying session (sets it to None), and the
api property afterwards transparently creates a fresh session configured
with the same base URL, bearer-token authorization header, timeout adapter
and GET-only retry policy for statuses 429 and 503. -/
theorem C8_close_then_reopen_fresh_session (c : WebClient) :
    (c.close)._api = none ∧
    (WebClient.api c.close).1 = (c.close).mkSession ∧
    (WebClient.api c.close).2._api = some ((c.close).mkSession) ∧
    (WebClient.api c.close).1.base_url = c.url ∧
    (WebClient.api c.close).1.headers =
      [("Authorization", "Bearer " ++ c.license_key)] ∧
    (WebClient.api c.close).1.adapter_timeout = c.timeout ∧
    (WebClient.api c.close).1.retry =
      { total := 3, backoff_factor := 1, status_forcelist := [429, 503]
      , allowed_methods := ["GET"], raise_on_status := false } :=
  ⟨rfl, rfl, rfl, rfl, rfl, rfl, rfl⟩

/-- C9: a filter value among all, finished, unfinished, error is sent
unchanged as the outgoing filter query parameter with no warning; any other
value is replaced by all, with a warning logged, before the request is
sent. -/
theorem C9_filter_fallback (f : String) :
    (f ∈ validFilters →
      (WebClient.list_analysesRequest f).1.params = [("filter", f)] ∧
      (WebClient.list_analysesRequest f).2 = false) ∧
    (f ∉ validFilters →
      (WebClient.list_analysesRequest f).1.params = [("filter", "all")] ∧
      (WebClient.list_analysesRequest f).2 = true) := by
  constructor
  · intro h
    simp [WebClient.list_analysesRequest, h]
  · intro h
    simp [WebClient.list_analysesRequest, h]

/-- C9 witness: a recognized filter (finished) passes through unchanged and
unwarned; an unrecognized one (weird) is replaced by all with a warning. -/
theorem C9_filter_fallback_witness :
    ((WebClient.list_analysesRequest "finished").1.params =
        [("filter", "finished")] ∧
      (WebClient.list_analysesRequest "finished").2 = false) ∧
    ((WebClient.list_analysesRequest "weird").1.params =
        [("filter", "all")] ∧
      (WebClient.list_analysesRequest "weird").2 = true) :=
  ⟨(C9_filter_fallback "finished").1 (by simp [validFilters]),
    (C9_filter_fallback "weird").2 (by simp [validFilters])⟩

/-- C7: for every attempt n and any draw u in [0, 1], the jittered backoff
computed by _wait (with the default cap 40 and base 0.1) lies in
[0, min(40, 0.1 * 2^n)]; on attempt 0 the function additionally sleeps the
full supplied estimated time before the jittered backoff. -/
theorem C7_backoff_bounds (attempt : Nat) (avg u : ℚ)
    (h0 : 0 ≤ u) (h1 : u ≤ 1) :
    (0 ≤ (WebClient._wait attempt avg 40 (1/10) u).2 ∧
      (WebClient._wait attempt avg 40 (1/10) u).2 ≤
        min 40 ((1/10) * 2 ^ attempt)) ∧
    (WebClient._wait attempt avg 40 (1/10) u).1 =
      (if attempt = 0 then
        [WaitEvent.sleepAvg avg,
          WaitEvent.sleepBackoff ((WebClient._wait attempt avg 40 (1/10) u).2)]
      else
        [WaitEvent.sleepBackoff
          ((WebClient._wait attempt avg 40 (1/10) u).2)]) := by
  have hmin : (0:ℚ) ≤ min 40 ((1/10) * 2 ^ attempt) :=
    le_min (by norm_num) (by positivity)
  refine ⟨⟨mul_nonneg h0 hmin, ?_⟩, ?_⟩
  · calc u * min 40 ((1/10) * 2 ^ attempt)
        ≤ 1 * min 40 ((1/10) * 2 ^ attempt) :=
          mul_le_mul_of_nonneg_right h1 hmin
      _ = min 40 ((1/10) * 2 ^ attempt) := one_mul _
  · by_cases h : attempt = 0 <;> simp [WebClient._wait, h]

/-- C7 witness: attempt 0, estimated time 7, draw 1/2. -/
theorem C7_backoff_bounds_witness :
    (0 ≤ (WebClient._wait 0 7 40 (1/10) (1/2)).2 ∧
      (WebClient._wait 0 7 40 (1/10) (1/2)).2 ≤ min 40 ((1/10) * 2 ^ 0)) ∧
    (WebClient._wait 0 7 40 (1/10) (1/2)).1 =
      (if (0:Nat) = 0 then
        [WaitEvent.sleepAvg 7,
          WaitEvent.sleepBackoff ((WebClient._wait 0 7 40 (1/10) (1/2)).2)]
      else
        [WaitEvent.sleepBackoff ((WebClient._wait 0 7 40 (1/10) (1/2)).2)]) :=
  C7_backoff_bounds 0 7 (1/2) (by norm_num) (by norm_num)

lemma getAnalysisLoop_all202 (analysis_id : String) (est : ℚ) (u : Nat → ℚ) :
    ∀ (rs : List InlyseResponse) (retries : Nat),
      (∀ r ∈ rs, r.status = 202) →
      (getAnalysisLoop analysis_id est u retries rs rs.length).1 =
        PollOutcome.maxRetriesExceeded ∧
      checkCount (getAnalysisLoop analysis_id est u retries rs rs.length).2 =
        rs.length := by
  intro rs
  induction rs with
  | nil => exact fun retries _ => ⟨rfl, rfl⟩
  | cons r rest ih =>
    intro retries h
    have hr : r.status = 202 := h r (List.mem_cons_self r rest)
    have hrest : ∀ x ∈ rest, x.status = 202 :=
      fun x hx => h x (List.mem_cons_of_mem r hx)
    have ih' := ih (retries + 1) hrest
    constructor
    · simp only [List.length_cons, getAnalysisLoop, hr]
      simpa using ih'.1
    · simp only [List.length_cons, getAnalysisLoop, hr]
      simp [checkCount_check, checkCount_append, checkCount_wait, ih'.2]

lemma getAnalysisLoop_first_non202 (analysis_id : String) (est : ℚ) (u : Nat → ℚ) :
    ∀ (pre : List InlyseResponse) (r : InlyseResponse)
      (rest : List InlyseResponse) (retries fuel : Nat),
      (∀ p ∈ pre, p.status = 202) → pre.length < fuel → r.status ≠ 202 →
      (getAnalysisLoop analysis_id est u retries (pre ++ r :: rest) fuel).1 =
        (if r.status = 200 then PollOutcome.ok r
         else if r.status = 429 then PollOutcome.rateLimitExceeded
         else PollOutcome.apiError r.content) ∧
      checkCount
        (getAnalysisLoop analysis_id est u retries (pre ++ r :: rest) fuel).2 =
        pre.length + 1 := by
  intro pre
  induction pre with
  | nil =>
    intro r rest retries fuel _ hfuel hne
    match fuel, hfuel with
    | f + 1, _ =>
      by_cases h200 : r.status = 200
      · constructor
        · simp [getAnalysisLoop, h200]
        · simp [getAnalysisLoop, h200, checkCount, isCheck]
      · by_cases h429 : r.status = 429
        · constructor
          · simp [getAnalysisLoop, h200, hne, h429]
          · simp [getAnalysisLoop, h200, hne, h429, checkCount, isCheck]
        · constructor
          · simp [getAnalysisLoop, h200, hne, h429]
          · simp [getAnalysisLoop, h200, hne, h429, checkCount, isCheck]
  | cons p pre ih =>
    intro r rest retries fuel h1 hfuel hne
    match fuel, hfuel with
    | f + 1, hf =>
      have hp : p.status = 202 := h1 p (List.mem_cons_self p pre)
      have hpre : ∀ x ∈ pre, x.status = 202 :=
        fun x hx => h1 x (List.mem_cons_of_mem p hx)
      have hlt : pre.length < f := by
        simp only [List.length_cons] at hf
        omega
      have ih' := ih r rest (retries + 1) f hpre hlt hne
      constructor
      · simp only [List.cons_append, getAnalysisLoop, hp]
        simpa using ih'.1
      · simp only [List.cons_append, getAnalysisLoop, hp]
        simp [checkCount_check, checkCount_append, checkCount_wait, ih'.2]

/-- C1: on check outcomes [202, 202, 200] with any retry budget of at
least 3, get_analysis performs exactly 3 check calls and returns the 200
envelope; on an all-202 sequence of length max_retries it raises
MaxRetriesExceeded after exactly max_retries check calls; max_retries
defaults to 3 for get_analysis and to 15 for the scan operations. -/
theorem C1_poll_loop_budget :
    (∀ (analysis_id : String) (r1 r2 r3 : InlyseResponse) (u : Nat → ℚ)
        (est : ℚ) (m : Nat),
      r1.status = 202 → r2.status = 202 → r3.status = 200 → 3 ≤ m →
      (WebClient.get_analysis analysis_id [r1, r2, r3] u est m).1 =
          PollOutcome.ok r3 ∧
        checkCount
          (WebClient.get_analysis analysis_id [r1, r2, r3] u est m).2 = 3) ∧
    (∀ (analysis_id : String) (rs : List InlyseResponse) (u : Nat → ℚ)
        (est : ℚ),
      (∀ r ∈ rs, r.status = 202) →
      (WebClient.get_analysis analysis_id rs u est rs.length).1 =
          PollOutcome.maxRetriesExceeded ∧
        checkCount
          (WebClient.get_analysis analysis_id rs u est rs.length).2 =
          rs.length) ∧
    (∀ analysis_id rs u est,
      WebClient.get_analysis analysis_id rs u est =
        WebClient.get_analysis analysis_id rs u est 3) ∧
    (∀ fn ct ur cr uu,
      WebClient.scan_file fn ct ur cr uu = WebClient.scan_file fn ct ur cr uu 15) ∧
    (∀ url ur cr uu,
      WebClient.scan_url url ur cr uu = WebClient.scan_url url ur cr uu 15) ∧
    (∀ url tok ur cr uu,
      WebClient.scan_owa url tok ur cr uu =
        WebClient.scan_owa url tok ur cr uu 15) := by
  refine ⟨?_, ?_, fun _ _ _ _ => rfl, fun _ _ _ _ _ => rfl,
    fun _ _ _ _ => rfl, fun _ _ _ _ _ => rfl⟩
  · intro analysis_id r1 r2 r3 u est m h1 h2 h3 hm
    obtain ⟨k, rfl⟩ : ∃ k, m = k + 3 := ⟨m - 3, by omega⟩
    have e : k + 3 = ((k + 1) + 1) + 1 := rfl
    constructor
    · simp [WebClient.get_analysis, e, getAnalysisLoop, h1, h2, h3]
    · simp [WebClient.get_analysis, e, getAnalysisLoop, h1, h2, h3,
        checkCount_check, checkCount_append, checkCount_wait, checkCount,
        isCheck, waitToPoll, WebClient._wait]
  · intro analysis_id rs u est h
    exact getAnalysisLoop_all202 analysis_id est u rs 0 h

/-- The status of a sample envelope used to instantiate the poll-loop
theorems on concrete inputs. -/
def sampleResp (s : Nat) : InlyseResponse :=
  { endpoint := "/api/analysis/X"
  , status := s
  , rate_limit := none
  , content_type := ("application/json", [])
  , content := Content.json (Json.str "pending") }

/-- C1 witness: the concrete sequences [202, 202, 200] with budget 3 and
[202] with budget 1. -/
theorem C1_poll_loop_budget_witness :
    ((WebClient.get_analysis "X" [sampleResp 202, sampleResp 202, sampleResp 200]
        (fun _ => 0) 5 3).1 = PollOutcome.ok (sampleResp 200) ∧
      checkCount
        (WebClient.get_analysis "X" [sampleResp 202, sampleResp 202, sampleResp 200]
          (fun _ => 0) 5 3).2 = 3) ∧
    ((WebClient.get_analysis "X" [sampleResp 202] (fun _ => 0) 5
        [sampleResp 202].length).1 = PollOutcome.maxRetriesExceeded ∧
      checkCount
        (WebClient.get_analysis "X" [sampleResp 202] (fun _ => 0) 5
          [sampleResp 202].length).2 = [sampleResp 202].length) :=
  ⟨C1_poll_loop_budget.1 "X" (sampleResp 202) (sampleResp 202) (sampleResp 200)
      (fun _ => 0) 5 3 rfl rfl rfl (by omega),
    C1_poll_loop_budget.2.1 "X" [sampleResp 202] (fun _ => 0) 5
      (by intro r hr; simp only [List.mem_singleton] at hr; subst hr; rfl)⟩

/-- C2: when the first non-202 check outcome is 429 and occurs within the
retry budget, get_analysis raises RateLimitExceeded right after that check,
with no further check calls; when it is any status other than 200, 202 or
429, it raises InlyseApiError carrying that response's content, with no
further check calls. -/
theorem C2_terminal_status_stops_polling (analysis_id : String) (est : ℚ)
    (u : Nat → ℚ) (pre rest : List InlyseResponse) (r : InlyseResponse)
    (m : Nat) (hpre : ∀ p ∈ pre, p.status = 202) (hm : pre.length < m) :
    (r.status = 429 →
      (WebClient.get_analysis analysis_id (pre ++ r :: rest) u est m).1 =
          PollOutcome.rateLimitExceeded ∧
        checkCount
          (WebClient.get_analysis analysis_id (pre ++ r :: rest) u est m).2 =
          pre.length + 1) ∧
    (r.status ≠ 200 → r.status ≠ 202 → r.status ≠ 429 →
      (WebClient.get_analysis analysis_id (pre ++ r :: rest) u est m).1 =
          PollOutcome.apiError r.content ∧
        checkCount
          (WebClient.get_analysis analysis_id (pre ++ r :: rest) u est m).2 =
          pre.length + 1) := by
  constructor
  · intro h429
    have hne : r.status ≠ 202 := by omega
    have h := getAnalysisLoop_first_non202 analysis_id est u pre r rest 0 m
      hpre hm hne
    refine ⟨?_, h.2⟩
    rw [WebClient.get_analysis, h.1]
    simp [h429]
  · intro h200 h202 h429
    have h := getAnalysisLoop_first_non202 analysis_id est u pre r rest 0 m
      hpre hm h202
    refine ⟨?_, h.2⟩
    rw [WebClient.get_analysis, h.1]
    simp [h200, h429]

/-- C2 witness: one 202 followed by a 429 under budget 3, and one 202
followed by a 404 under budget 3. -/
theorem C2_terminal_status_stops_polling_witness :
    ((WebClient.get_analysis "X" ([sampleResp 202] ++ sampleResp 429 :: [sampleResp 200])
        (fun _ => 0) 5 3).1 = PollOutcome.rateLimitExceeded ∧
      checkCount
        (WebClient.get_analysis "X" ([sampleResp 202] ++ sampleResp 429 :: [sampleResp 200])
          (fun _ => 0) 5 3).2 = [sampleResp 202].length + 1) ∧
    ((WebClient.get_analysis "X" ([sampleResp 202] ++ sampleResp 404 :: [sampleResp 200])
        (fun _ => 0) 5 3).1 = PollOutcome.apiError (sampleResp 404).content ∧
      checkCount
        (WebClient.get_analysis "X" ([sampleResp 202] ++ sampleResp 404 :: [sampleResp 200])
          (fun _ => 0) 5 3).2 = [sampleResp 202].length + 1) :=
  ⟨(C2_terminal_status_stops_polling "X" 5 (fun _ => 0) [sampleResp 202]
      [sampleResp 200] (sampleResp 429) 3
      (by intro p hp; simp only [List.mem_singleton] at hp; subst hp; rfl)
      (by simp)).1 rfl,
    (C2_terminal_status_stops_polling "X" 5 (fun _ => 0) [sampleResp 202]
      [sampleResp 200] (sampleResp 404) 3
      (by intro p hp; simp only [List.mem_singleton] at hp; subst hp; rfl)
      (by simp)).2 (by decide) (by decide) (by decide)⟩

/-- A check call occurs strictly before an attempt-0 courtesy sleep in the
trace — the situation the spec's sentence about the courtesy wait rules
out. -/
def checkPrecedesCourtesyWait (tr : List PollEvent) : Prop :=
  ∃ i j, i < j ∧
    (∃ a s, tr.get? i = some (PollEvent.check a s)) ∧
    (∃ t, tr.get? j = some (PollEvent.sleepAvg t))

/-- C4 counterexample: on the concrete run with check outcomes [202, 200],
estimated time 5 and draw 1/2, the first check call precedes the attempt-0
courtesy wait — refuting the claim that no check call ever precedes it. -/
theorem C4_counterexample :
    checkPrecedesCourtesyWait
      (WebClient.get_analysis "X" [sampleResp 202, sampleResp 200]
        (fun _ => 1/2) 5 3).2 :=
  ⟨0, 1, by omega, ⟨"X", 202, rfl⟩, ⟨5, rfl⟩⟩

/-- C4 amended: the poll loop performs its first check call immediately,
with no preceding sleep; the attempt-0 courtesy wait of the full estimated
time is slept only after a first check that returned 202, followed by the
jittered backoff, before the next check. -/
theorem C4_courtesy_wait_follows_first_check (analysis_id : String)
    (est : ℚ) (u : Nat → ℚ) (r : InlyseResponse)
    (rest : List InlyseResponse) (m : Nat) (hm : 0 < m) :
    (∃ tail,
      (WebClient.get_analysis analysis_id (r :: rest) u est m).2 =
        PollEvent.check analysis_id r.status :: tail) ∧
    (r.status = 202 →
      ∃ tail,
        (WebClient.get_analysis analysis_id (r :: rest) u est m).2 =
          PollEvent.check analysis_id r.status ::
            PollEvent.sleepAvg est ::
              PollEvent.sleepBackoff (u 0 * min 40 ((1/10) * 2 ^ (0:Nat))) ::
                tail) := by
  obtain ⟨k, rfl⟩ : ∃ k, m = k + 1 := ⟨m - 1, by omega⟩
  constructor
  · by_cases h200 : r.status = 200
    · exact ⟨[], by simp [WebClient.get_analysis, getAnalysisLoop, h200]⟩
    · by_cases h202 : r.status = 202
      · have h : (WebClient.get_analysis analysis_id (r :: rest) u est (k + 1)).2 =
            PollEvent.check analysis_id r.status ::
              (PollEvent.sleepAvg est ::
                PollEvent.sleepBackoff (u 0 * min 40 ((1/10) * 2 ^ (0:Nat))) ::
                  (getAnalysisLoop analysis_id est u 1 rest k).2) := by
          simp [WebClient.get_analysis, getAnalysisLoop, h200, h202,
            WebClient._wait, waitToPoll]
        exact ⟨_, h⟩
      · by_cases h429 : r.status = 429
        · exact ⟨[], by
            simp [WebClient.get_analysis, getAnalysisLoop, h200, h202, h429]⟩
        · exact ⟨[], by
            simp [WebClient.get_analysis, getAnalysisLoop, h200, h202, h429]⟩
  · intro h202
    have h200 : ¬ r.status = 200 := by omega
    have h : (WebClient.get_analysis analysis_id (r :: rest) u est (k + 1)).2 =
        PollEvent.check analysis_id r.status ::
          PollEvent.sleepAvg est ::
            PollEvent.sleepBackoff (u 0 * min 40 ((1/10) * 2 ^ (0:Nat))) ::
              (getAnalysisLoop analysis_id est u 1 rest k).2 := by
      simp [WebClient.get_analysis, getAnalysisLoop, h200, h202,
        WebClient._wait, waitToPoll]
    exact ⟨_, h⟩

/-- C4 amended witness: the concrete run with check outcomes [202, 200]. -/
theorem C4_courtesy_wait_follows_first_check_witness :
    (∃ tail,
      (WebClient.get_analysis "X" [sampleResp 202, sampleResp 200]
        (fun _ => 1/2) 5 3).2 =
        PollEvent.check "X" (sampleResp 202).status :: tail) ∧
    ((sampleResp 202).status = 202 →
      ∃ tail,
        (WebClient.get_analysis "X" [sampleResp 202, sampleResp 200]
          (fun _ => 1/2) 5 3).2 =
          PollEvent.check "X" (sampleResp 202).status ::
            PollEvent.sleepAvg 5 ::
              PollEvent.sleepBackoff
                ((1/2 : ℚ) * min 40 ((1/10) * 2 ^ (0:Nat))) :: tail) :=
  C4_courtesy_wait_follows_first_check "X" 5 (fun _ => 1/2) (sampleResp 202)
    [sampleResp 200] 3 (by omega)

/-- C3: _upload raises RateLimitExceeded on a 429 upload response, raises
InlyseApiError with the response content on any status outside [200, 299],
and otherwise extracts EstimatedAnalysisTime and id from the JSON body and
enters the poll loop with courtesy-wait base EstimatedAnalysisTime * 0.2. -/
theorem C3_upload_dispatch (upl : InlyseResponse) (cr : List InlyseResponse)
    (u : Nat → ℚ) (m : Nat) :
    (upl.status = 429 →
      WebClient._upload upl cr u m =
        some (PollOutcome.rateLimitExceeded, [])) ∧
    (upl.status ≠ 429 → 299 < upl.status ∨ upl.status < 200 →
      WebClient._upload upl cr u m =
        some (PollOutcome.apiError upl.content, [])) ∧
    (∀ (e : ℚ) (idJson : Json), 200 ≤ upl.status → upl.status ≤ 299 →
      contentLookup upl.content "EstimatedAnalysisTime" = some (Json.num e) →
      contentLookup upl.content "id" = some idJson →
      WebClient._upload upl cr u m =
        some (WebClient.get_analysis (jsonArgString idJson) cr u
          (e * (1/5)) m)) := by
  refine ⟨?_, ?_, ?_⟩
  · intro h
    simp [WebClient._upload, h]
  · intro hne hout
    simp [WebClient._upload, hne, hout]
  · intro e idJson h1 h2 hE hid
    have h429 : ¬ upl.status = 429 := by omega
    have hr : ¬ (299 < upl.status ∨ upl.status < 200) := by omega
    simp [WebClient._upload, h429, hr, hE, hid, Json.asNum?, bind]

/-- An upload response with a well-formed JSON body, for instantiating the
submit-step theorems. -/
def sampleUpload : InlyseResponse :=
  { endpoint := "/api/files/"
  , status := 200
  , rate_limit := none
  , content_type := ("application/json", [])
  , content := Content.json (Json.obj
      [("id", Json.str "X"), ("EstimatedAnalysisTime", Json.num 5)]) }

/-- C3 witness: a 429 upload, a 404 upload, and a successful upload whose
body carries id X and EstimatedAnalysisTime 5. -/
theorem C3_upload_dispatch_witness :
    WebClient._upload (sampleResp 429) [] (fun _ => 0) 3 =
      some (PollOutcome.rateLimitExceeded, []) ∧
    WebClient._upload (sampleResp 404) [] (fun _ => 0) 3 =
      some (PollOutcome.apiError (sampleResp 404).content, []) ∧
    WebClient._upload sampleUpload [sampleResp 200] (fun _ => 0) 3 =
      some (WebClient.get_analysis (jsonArgString (Json.str "X"))
        [sampleResp 200] (fun _ => 0) (5 * (1/5)) 3) :=
  ⟨(C3_upload_dispatch (sampleResp 429) [] (fun _ => 0) 3).1 rfl,
    (C3_upload_dispatch (sampleResp 404) [] (fun _ => 0) 3).2.1
      (by decide) (by decide),
    (C3_upload_dispatch sampleUpload [sampleResp 200] (fun _ => 0) 3).2.2
      5 (Json.str "X") (by decide) (by decide) rfl rfl⟩

/-- C10: an upload response with status in [200, 299] whose JSON body lacks
the key id or the key EstimatedAnalysisTime makes _upload fail with an
unhandled lookup error — modelled as the none of the Option-valued
embedding — rather than with any of the documented error outcomes. -/
theorem C10_upload_missing_key (upl : InlyseResponse)
    (cr : List InlyseResponse) (u : Nat → ℚ) (m : Nat)
    (kvs : List (String × Json)) (h1 : 200 ≤ upl.status)
    (h2 : upl.status ≤ 299)
    (hc : upl.content = Content.json (Json.obj kvs))
    (hmiss : kvs.find? (fun p => p.1 == "id") = none ∨
      kvs.find? (fun p => p.1 == "EstimatedAnalysisTime") = none) :
    WebClient._upload upl cr u m = none := by
  have h429 : ¬ upl.status = 429 := by omega
  have hr : ¬ (299 < upl.status ∨ upl.status < 200) := by omega
  rcases hmiss with hid | hE0
  · have hidL : contentLookup upl.content "id" = none := by
      rw [hc]; simp [contentLookup, hid]
    cases hE : contentLookup upl.content "EstimatedAnalysisTime" with
    | none => simp [WebClient._upload, h429, hr, hE, bind]
    | some j =>
      cases hN : j.asNum? with
      | none => simp [WebClient._upload, h429, hr, hE, hN, bind]
      | some e => simp [WebClient._upload, h429, hr, hE, hN, hidL, bind]
  · have hEL : contentLookup upl.content "EstimatedAnalysisTime" = none := by
      rw [hc]; simp [contentLookup, hE0]
    simp [WebClient._upload, h429, hr, hEL, bind]

/-- An upload response whose JSON body lacks the id key. -/
def sampleUploadMissingId : InlyseResponse :=
  { endpoint := "/api/files/"
  , status := 200
  , rate_limit := none
  , content_type := ("application/json", [])
  , content := Content.json (Json.obj [("EstimatedAnalysisTime", Json.num 5)]) }

/-- C10 witness: a 200 upload response whose body has EstimatedAnalysisTime
but no id. -/
theorem C10_upload_missing_key_witness :
    WebClient._upload sampleUploadMissingId [] (fun _ => 0) 3 = none :=
  C10_upload_missing_key sampleUploadMissingId [] (fun _ => 0) 3
    [("EstimatedAnalysisTime", Json.num 5)] (by decide) (by decide) rfl
    (Or.inl rfl)

lemma rateLimitOfHeaders_spec (hs : List (String × String))
    (q : Option RateLimitInfo) (h : rateLimitOfHeaders hs = some q) :
    (headerLookup hs "x-ratelimit-remaining" = none → q = none) ∧
    (∀ remStr, headerLookup hs "x-ratelimit-remaining" = some remStr →
      ∃ rl, q = some rl ∧ digitsToNat? remStr.data = some rl.remaining ∧
        ∃ rstStr, headerLookup hs "x-ratelimit-reset" = some rstStr ∧
          strptimeDMY rstStr = some rl.reset.naive ∧
          rl.reset.tz = TZ.utc) := by
  constructor
  · intro hnone
    rw [rateLimitOfHeaders] at h
    rw [hnone] at h
    exact (Option.some.inj h).symm
  · intro remStr hrem
    rw [rateLimitOfHeaders] at h
    rw [hrem] at h
    simp only [bind, Option.bind_eq_some] at h
    obtain ⟨limStr, hlim, lim, hlimN, rem, hremN, rstStr, hrst, dt, hdt, hfin⟩ := h
    refine ⟨_, (Option.some.inj hfin).symm, hremN, rstStr, hrst, hdt, rfl⟩

lemma endpointWrap_parts (base path : String) (r : RawResponse)
    (env : InlyseResponse) (h : endpointWrap base path r = some env) :
    ∃ quota ctHeader,
      rateLimitOfHeaders r.headers = some quota ∧
      headerLookup r.headers "content-type" = some ctHeader ∧
      env.rate_limit = quota ∧
      env.content_type = parseContentTypeHeader ctHeader ∧
      (if (parseContentTypeHeader ctHeader).1 = "application/json"
        then r.bodyJson.map Content.json
        else some (Content.bytes r.bodyBytes)) = some env.content := by
  unfold endpointWrap at h
  simp only [bind, Option.bind_eq_some] at h
  obtain ⟨quota, hq, ctH, hct, hrest⟩ := h
  by_cases hmime : (parseContentTypeHeader ctH).1 = "application/json"
  · rw [if_pos hmime] at hrest
    simp only [Option.bind_eq_some] at hrest
    obtain ⟨content, hcontent, hfin⟩ := hrest
    have he := Option.some.inj hfin
    refine ⟨quota, ctH, hq, hct, ?_, ?_, ?_⟩
    · rw [← he]
    · rw [← he]
    · rw [if_pos hmime, ← he]
      exact hcontent
  · rw [if_neg hmime] at hrest
    simp only [Option.bind_eq_some] at hrest
    obtain ⟨content, hcontent, hfin⟩ := hrest
    have he := Option.some.inj hfin
    refine ⟨quota, ctH, hq, hct, ?_, ?_, ?_⟩
    · rw [← he]
    · rw [← he]
    · rw [if_neg hmime, ← he]
      exact hcontent

/-- C5: when a response carries the x-ratelimit-remaining header, the
envelope's rate-limit snapshot has remaining equal to that header parsed as
an integer and reset equal to the x-ratelimit-reset header parsed in
day-month-year hour:minute:second format with the UTC timezone attached;
when the header is absent the snapshot is None, not a zero-valued
structure. -/
theorem C5_rate_limit_snapshot (base path : String) (r : RawResponse)
    (env : InlyseResponse) (h : endpointWrap base path r = some env) :
    (∀ remStr,
      headerLookup r.headers "x-ratelimit-remaining" = some remStr →
      ∃ rl, env.rate_limit = some rl ∧
        digitsToNat? remStr.data = some rl.remaining ∧
        ∃ rstStr,
          headerLookup r.headers "x-ratelimit-reset" = some rstStr ∧
          strptimeDMY rstStr = some rl.reset.naive ∧
          rl.reset.tz = TZ.utc) ∧
    (headerLookup r.headers "x-ratelimit-remaining" = none →
      env.rate_limit = none) := by
  obtain ⟨quota, ctH, hq, hct, hrl, hcty, hcont⟩ := endpointWrap_parts base path r env h
  have hspec := rateLimitOfHeaders_spec r.headers quota hq
  constructor
  · intro remStr hrem
    obtain ⟨rl, hqrl, hrest⟩ := hspec.2 remStr hrem
    exact ⟨rl, by rw [hrl, hqrl], hrest⟩
  · intro hnone
    rw [hrl, hspec.1 hnone]

/-- C6: when the parsed content-type mime of a response is
application/json, the envelope's content is the body decoded as a
structured JSON value; for any other mime type the content is the raw byte
payload. -/
theorem C6_content_decoding (base path : String) (r : RawResponse)
    (env : InlyseResponse) (h : endpointWrap base path r = some env) :
    ((env.content_type).1 = "application/json" →
      ∃ j, r.bodyJson = some j ∧ env.content = Content.json j) ∧
    ((env.content_type).1 ≠ "application/json" →
      env.content = Content.bytes r.bodyBytes) := by
  obtain ⟨quota, ctH, hq, hct, hrl, hcty, hcont⟩ := endpointWrap_parts base path r env h
  rw [hcty]
  constructor
  · intro hmime
    rw [if_pos hmime] at hcont
    obtain ⟨j, hj, hje⟩ := Option.map_eq_some'.mp hcont
    exact ⟨j, hj, hje.symm⟩
  · intro hmime
    rw [if_neg hmime] at hcont
    exact (Option.some.inj hcont).symm

/-- A raw JSON response with all rate-limit headers, as the stats endpoint
returns it. -/
def rawJsonSample : RawResponse :=
  { status_code := 200
  , headers :=
      [("content-type", "application/json; charset=UTF-8")
      , ("x-ratelimit-limit", "15000")
      , ("x-ratelimit-remaining", "14993")
      , ("x-ratelimit-reset", "20-03-2023 19:45:38")]
  , bodyJson := some (Json.obj [("AnalysedFiles", Json.num 293)])
  , bodyBytes := [] }

/-- The envelope endpointWrap builds from rawJsonSample. -/
def envJsonSample : InlyseResponse :=
  { endpoint := "https://malware.ai/api/stats"
  , status := 200
  , rate_limit := some
      { limit := 15000
      , remaining := 14993
      , reset :=
          { naive :=
              { year := 2023, month := 3, day := 20
              , hour := 19, minute := 45, second := 38 }
          , tz := TZ.utc } }
  , content_type := ("application/json", [("charset", ParamVal.str "UTF-8")])
  , content := Content.json (Json.obj [("AnalysedFiles", Json.num 293)]) }

/-- A raw binary response without rate-limit headers, as the download
endpoint returns it. -/
def rawPdfSample : RawResponse :=
  { status_code := 200
  , headers := [("content-type", "application/pdf")]
  , bodyJson := none
  , bodyBytes := [37, 80, 68, 70] }

/-- The envelope endpointWrap builds from rawPdfSample. -/
def envPdfSample : InlyseResponse :=
  { endpoint := "https://malware.ai/api/analysis/X/download"
  , status := 200
  , rate_limit := none
  , content_type := ("application/pdf", [])
  , content := Content.bytes [37, 80, 68, 70] }

/-- C5 witness: the concrete stats-like response carries the snapshot with
remaining 14993 and the parsed UTC reset time; the concrete download-like
response has no snapshot. -/
theorem C5_rate_limit_snapshot_witness :
    (∃ rl, envJsonSample.rate_limit = some rl ∧
      digitsToNat? ("14993" : String).data = some rl.remaining ∧
      ∃ rstStr,
        headerLookup rawJsonSample.headers "x-ratelimit-reset" = some rstStr ∧
        strptimeDMY rstStr = some rl.reset.naive ∧
        rl.reset.tz = TZ.utc) ∧
    envPdfSample.rate_limit = none :=
  ⟨(C5_rate_limit_snapshot "https://malware.ai" "/api/stats" rawJsonSample
      envJsonSample (by rfl)).1 "14993" rfl,
    (C5_rate_limit_snapshot "https://malware.ai" "/api/analysis/X/download"
      rawPdfSample envPdfSample (by rfl)).2 rfl⟩

/-- C6 witness: the concrete JSON response decodes to the structured value;
the concrete PDF response keeps the raw bytes. -/
theorem C6_content_decoding_witness :
    (∃ j, rawJsonSample.bodyJson = some j ∧
      envJsonSample.content = Content.json j) ∧
    envPdfSample.content = Content.bytes rawPdfSample.bodyBytes :=
  ⟨(C6_content_decoding "https://malware.ai" "/api/stats" rawJsonSample
      envJsonSample (by rfl)).1 rfl,
    (C6_content_decoding "https://malware.ai" "/api/analysis/X/download"
      rawPdfSample envPdfSample (by rfl)).2 (by decide)⟩
